import Mathlib

/-!
Verification of the rotating file sink of a log4go fork.

The Go source (filelog.go) is embedded shallowly: the directory holding the
log file is an association list from file name to file content, the file
system calls used by the rotation path (Lstat, Open, Readdirnames, Remove,
Rename, OpenFile) become total functions or Except-valued functions on that
directory state, and the sink worker's loop becomes explicit state passing
over a list of dequeued records.  File sizes are character counts (all the
contents considered here are ASCII, so bytes and characters coincide).
-/

namespace Log4go

/-- A directory state: an association list from file name to file content,
modelling the directory `path.Dir(fileName)` that holds the active log file
and its rotated history.  Directory entries have unique names. -/
abbrev Fs := List (String × String)

/-- Look a file name up in a directory state. -/
def lookupFs (fs : Fs) (name : String) : Option String :=
  match fs with
  | [] => none
  | (n, c) :: rest => if n = name then some c else lookupFs rest name

/-- Model of `os.Remove(path)`: fails when the file does not exist, otherwise
drops the entry (names are unique, so filtering removes exactly that file). -/
def osRemove (fs : Fs) (name : String) : Except String Fs :=
  match lookupFs fs name with
  | none => .error ("remove " ++ name ++ ": no such file or directory")
  | some _ => .ok (fs.filter (fun e => decide (e.1 ≠ name)))

/-- Model of `os.Rename(old, new)`: fails when `old` does not exist, otherwise
moves the content to `new`, replacing any existing file at `new` (POSIX rename
overwrites the destination). -/
def osRename (fs : Fs) (oldName newName : String) : Except String Fs :=
  match lookupFs fs oldName with
  | none => .error ("rename " ++ oldName ++ ": no such file or directory")
  | some c =>
      .ok ((fs.filter (fun e => decide (e.1 ≠ oldName) && decide (e.1 ≠ newName))) ++ [(newName, c)])

/-- Model of the `os.O_CREATE` part of opening the log file: create the file
with empty content when absent, leave an existing file untouched. -/
def createIfAbsent (fs : Fs) (name : String) : Fs :=
  match lookupFs fs name with
  | some _ => fs
  | none => fs ++ [(name, "")]

/-- Model of a write to a file opened with `os.O_APPEND`: append `s` to the
content of `name` (the file was opened, so it is present). -/
def appendFs (fs : Fs) (name : String) (s : String) : Fs :=
  fs.map (fun e => if e.1 = name then (e.1, e.2 ++ s) else e)

/-- The characters after the last dot of a name, when the name contains one. -/
def suffixAfterLastDot : List Char → Option (List Char)
  | [] => none
  | c :: rest =>
    match suffixAfterLastDot rest with
    | some ds => some ds
    | none => if c = '.' then some rest else none

/-- Decimal digit test, the regexp character class \d. -/
def isDigitChar (c : Char) : Bool := decide ('0' ≤ c) && decide (c ≤ '9')

/-- Evaluation of `strconv.Atoi` on a string of decimal digits. -/
def digitsToNat (ds : List Char) : Nat :=
  ds.foldl (fun acc c => 10 * acc + (c.toNat - '0'.toNat)) 0

/-- Model of matching a name against the module-level `fileNameRegexp`,
the pattern anchored-start dot-star backslash-dot capture of one to six
digits anchored-end (source line 18): a name matches exactly when the
segment after its LAST dot consists of one to six decimal digits (the greedy
dot-star forces the last dot; a dot cannot occur among digits), and the
captured group, parsed by `strconv.Atoi`, is that segment's value.  Note the
pattern puts no constraint whatsoever on what precedes the dot. -/
def matchFileNum (name : String) : Option Nat :=
  match suffixAfterLastDot name.toList with
  | none => none
  | some ds =>
      if ds ≠ [] ∧ ds.length ≤ 6 ∧ ds.all isDigitChar = true then some (digitsToNat ds)
      else none

/-- Model of the Go map assignment m[k] = v: replace the value at an existing
key, otherwise add the binding. -/
def mapInsert (m : List (Nat × String)) (k : Nat) (v : String) : List (Nat × String) :=
  if m.any (fun e => e.1 == k) then m.map (fun e => if e.1 = k then (k, v) else e)
  else m ++ [(k, v)]

/-- Go map lookup returning an Option. -/
def lookupNum (m : List (Nat × String)) (k : Nat) : Option String :=
  match m with
  | [] => none
  | (n, v) :: rest => if n = k then some v else lookupNum rest k

/-- Model of `delete(m, k)` on the numbering index. -/
def eraseNum (m : List (Nat × String)) (k : Nat) : List (Nat × String) :=
  m.filter (fun e => decide (e.1 ≠ k))

/-- The loop body of getFileNums (source lines 275–284): index a name
matching `fileNameRegexp` by its parsed suffix, skipping a suffix at or above
maxFiles when maxFiles is positive. -/
def getFileNumsStep (maxFiles : Int) (m : List (Nat × String)) (name : String) :
    List (Nat × String) :=
  match matchFileNum name with
  | some num => if maxFiles ≤ 0 ∨ (num : Int) < maxFiles then mapInsert m num name else m
  | none => m

/-- getFileNums (source lines 272–295): scan a directory listing, index every
name matching `fileNameRegexp` by its parsed numeric suffix — skipping a
suffix at or above maxFiles when maxFiles is positive — and return the index
together with its key list (the Go map's key set; its iteration order is
arbitrary and the caller sorts it, so insertion order is taken here). -/
def getFileNums (fileNames : List String) (maxFiles : Int) : List (Nat × String) × List Nat :=
  let fileNums := fileNames.foldl (getFileNumsStep maxFiles) []
  (fileNums, fileNums.map Prod.fst)

/-- The free-slot loop of renameOldFiles (source lines 237–243).  In Go,
`for n := range nums` with a single loop variable ranges over the INDEX of
the slice, not its elements: here `n` is the position counter starting at 0
while `free` starts at 1, and both advance together, so the guard
`n > free` can never hold and the loop never breaks early. -/
def freeSlotLoop : List Nat → Nat → Nat → Nat
  | [], _, free => free
  | _ :: rest, n, free => if n > free then free else freeSlotLoop rest (n + 1) (free + 1)

/-- The free slot as renameOldFiles computes it from the sorted key list. -/
def freeSlot (nums : List Nat) : Nat := freeSlotLoop nums 0 1

/-- Model of `sort.Ints`: sort ascending. -/
def sortInts (l : List Nat) : List Nat := List.insertionSort (· ≤ ·) l

/-- Decimal digits of a natural number, most significant first; the first
argument is recursion fuel, which strictly exceeds the digit count whenever
it strictly exceeds the number itself, so the zero-fuel branch is
unreachable from `natToString`. -/
def natDigitsGo : Nat → Nat → List Char → List Char
  | 0, _, acc => acc
  | fuel + 1, n, acc =>
    let d := Char.ofNat (n % 10 + '0'.toNat)
    if n < 10 then d :: acc else natDigitsGo fuel (n / 10) (d :: acc)

/-- Decimal rendering of a natural number. -/
def natToString (n : Nat) : String := String.mk (natDigitsGo (n + 1) n [])

/-- Model of `fmt.Sprintf` with verb percent-zero-four-d: decimal, left padded
with zeros to a width of four. -/
def pad4 (n : Nat) : String :=
  let s := natToString n
  if s.length < 4 then String.mk (List.replicate (4 - s.length) '0') ++ s else s

/-- The loop body of shiftFiles (source lines 297–318): iterate the sorted
suffix list from the top index downward — here, over the reversed sorted
list — and rename each suffix strictly below the free slot that is still in
the index to suffix + 1 (a missing index entry is skipped, matching the
`ok` check on the map lookup). -/
def shiftFilesLoop (freeSlot : Nat) (files : List (Nat × String)) (fileName : String) :
    List Nat → Fs → Except String Fs
  | [], fs => .ok fs
  | n :: rest, fs =>
    if n ≥ freeSlot then shiftFilesLoop freeSlot files fileName rest fs
    else
      match lookupNum files n with
      | none => shiftFilesLoop freeSlot files fileName rest fs
      | some oldName =>
        match osRename fs oldName (fileName ++ "." ++ pad4 (n + 1)) with
        | .ok fs2 => shiftFilesLoop freeSlot files fileName rest fs2
        | .error e => .error e

/-- shiftFiles from the source, entered on the sorted ascending key list. -/
def shiftFiles (freeSlot : Nat) (nums : List Nat) (files : List (Nat × String))
    (fileName : String) (fs : Fs) : Except String Fs :=
  shiftFilesLoop freeSlot files fileName nums.reverse fs

/-- renameOldFiles (source lines 213–270).  Opening the directory always
succeeds in the model.  When maxFiles is 1 the target file is simply removed.
Otherwise: build the numbering index from the directory listing, sort the
keys, run the free-slot loop, evict the file at the last sorted key when
`free >= maxFiles && maxFiles > 0` (the two error branches inside the
eviction step are unreachable: the key list is nonempty there and every key
is bound in the index; in Go the first would be a panic and the second a
remove of the empty path), shift when `free > 1`, and finally rename the
active file to suffix 0001. -/
def renameOldFiles (fs : Fs) (fileName : String) (maxFiles : Int) : Except String Fs :=
  if maxFiles = 1 then osRemove fs fileName
  else
    let names := fs.map Prod.fst
    let p := getFileNums names maxFiles
    let fileNums := p.1
    let nums := sortInts p.2
    let free := freeSlot nums
    let step1 : Except String (List (Nat × String) × Fs) :=
      if (free : Int) ≥ maxFiles ∧ maxFiles > 0 then
        match nums.getLast? with
        | some lastNum =>
          match lookupNum fileNums lastNum with
          | some lastFile =>
            match osRemove fs lastFile with
            | .ok fs2 => .ok (eraseNum fileNums lastNum, fs2)
            | .error e => .error e
          | none => .error "remove: invalid argument"
        | none => .error "index out of range"
      else .ok (fileNums, fs)
    match step1 with
    | .error e => .error e
    | .ok q =>
      let step2 := if 1 < free then shiftFiles free nums q.1 fileName q.2 else .ok q.2
      match step2 with
      | .error e => .error e
      | .ok fs3 => osRename fs3 fileName (fileName ++ ".0001")

/-- Count of newline bytes in one read buffer, `bytes.Count(buf, lineSep)`. -/
def countChunk (buf : List Char) : Nat := (buf.filter (fun c => c == '\n')).length

/-- The read loop of lineCount (source lines 331–342), streaming the content
in chunks of at most 8196 bytes and counting newline bytes in each chunk.
The first argument is recursion fuel: every chunk read from a nonempty rest
consumes at least one byte, so fuel equal to the content length makes the
zero-fuel branch unreachable (see `lineCountLoopGo_eq`). -/
def lineCountLoopGo : Nat → List Char → Nat
  | _, [] => 0
  | 0, _ => 0
  | fuel + 1, c :: cs => countChunk ((c :: cs).take 8196) + lineCountLoopGo fuel ((c :: cs).drop 8196)

/-- The chunked newline count of a whole content. -/
def lineCountLoop (l : List Char) : Nat := lineCountLoopGo l.length l

/-- lineCount (source lines 320–345): open the file and count its newline
bytes; opening a missing file is an error. -/
def lineCount (fs : Fs) (fileName : String) : Except String Nat :=
  match lookupFs fs fileName with
  | none => .error ("open " ++ fileName ++ ": no such file or directory")
  | some content => .ok (lineCountLoop content.toList)

/-- Count of newline characters in a string. -/
def countNewlines (s : String) : Nat := (s.toList.filter (fun c => c == '\n')).length

/-- The FileLogWriter state owned by the sink worker.  `header` and `trailer`
hold the rendered header and trailer text: the record-formatting mini-language
(`FormatLogRecord`) is outside the embedded core and, for the writers built
here, both templates are the empty string, which renders to the empty string.
`fileOpen` models `w.file != nil`. -/
structure FileLogWriter where
  filename : String
  format : String
  header : String
  trailer : String
  maxlines : Int
  maxlines_curlines : Int
  maxsize : Int
  maxsize_cursize : Int
  daily : Bool
  daily_opendate : Int
  maxfiles : Int
  rotate : Bool
  fileOpen : Bool
deriving DecidableEq

/-- The field initialisation of NewFileLogWriter (source lines 77–85); the
record queue and rotation channel are modelled by the event list fed to
`runWorker` below. -/
def newFileLogWriter (fname : String) (rotate : Bool) : FileLogWriter where
  filename := fname
  format := "[%D %T] [%L] (%S) %M"
  header := ""
  trailer := ""
  maxlines := 0
  maxlines_curlines := 0
  maxsize := 0
  maxsize_cursize := 0
  daily := false
  daily_opendate := 0
  maxfiles := 100
  rotate := rotate
  fileOpen := false

/-- SetRotateLines. -/
def setRotateLines (w : FileLogWriter) (n : Int) : FileLogWriter := { w with maxlines := n }

/-- SetMaxFiles. -/
def setMaxFiles (w : FileLogWriter) (n : Int) : FileLogWriter := { w with maxfiles := n }

/-- SetRotateDaily. -/
def setRotateDaily (w : FileLogWriter) (b : Bool) : FileLogWriter := { w with daily := b }

/-- intRotate (source lines 148–211); `nowDay` is `time.Now().Day()`.
Close any open file after writing the trailer; when retention is on and the
target exists, decide whether rotation is needed (always when forced,
otherwise by measuring the existing file against the size and line
thresholds) and shift the old files when it is; then open the target in
append-or-create mode, write the header, record the day of month and install
the counters.

A crucial detail of the source is kept here: line 166 reads
`cur_lines, err := lineCount(w.filename)` — a short variable declaration
inside the inner block, which declares a NEW `cur_lines` shadowing the one
from line 155.  The inner value (named `innerCurLines` below) feeds only the
threshold comparison; the outer `cur_lines`, which line 207 copies into
`w.maxlines_curlines`, is never assigned on that path and stays 0. -/
def intRotate (w : FileLogWriter) (fs : Fs) (force : Bool) (nowDay : Int) :
    Except String (FileLogWriter × Fs) :=
  let fs0 := if w.fileOpen then appendFs fs w.filename w.trailer else fs
  let resRotate : Except String (Int × Int × Fs) :=
    if w.rotate then
      match lookupFs fs0 w.filename with
      | some content =>
        if force then
          match renameOldFiles fs0 w.filename w.maxfiles with
          | .ok fs1 => .ok (0, 0, fs1)
          | .error e => .error ("Rotate: " ++ e)
        else
          let cur_size : Int := (content.length : Int)
          match lineCount fs0 w.filename with
          | .error e => .error ("Rotate: " ++ e)
          | .ok innerCurLines =>
            let needRotate :=
              (decide (w.maxsize > 0) && decide (cur_size ≥ w.maxsize))
                || (decide (w.maxlines > 0) && decide ((innerCurLines : Int) ≥ w.maxlines))
            if needRotate then
              match renameOldFiles fs0 w.filename w.maxfiles with
              | .ok fs1 => .ok (0, 0, fs1)
              | .error e => .error ("Rotate: " ++ e)
            else .ok (0, cur_size, fs0)
      | none => .ok (0, 0, fs0)
    else .ok (0, 0, fs0)
  match resRotate with
  | .error e => .error e
  | .ok r =>
    let fs2 := appendFs (createIfAbsent r.2.2 w.filename) w.filename w.header
    .ok ({ w with fileOpen := true
                  daily_opendate := nowDay
                  maxlines_curlines := r.1
                  maxsize_cursize := r.2.1 }, fs2)

/-- One record as the worker dequeues it: `out` is the already rendered
`FormatLogRecord(w.format, rec)` (the formatter is outside the core), `day`
is `time.Now().Day()` at processing time, and `writeFails` says whether the
Fprint of this record to the file returns an error — an external disk
condition.  A failed write is modelled as writing nothing, so its returned
byte count n is 0. -/
structure WriteRec where
  out : String
  day : Int
  writeFails : Bool
deriving DecidableEq

/-- The rotation guard evaluated before each record write (source lines
117–119). -/
def needsRotation (w : FileLogWriter) (day : Int) : Bool :=
  (decide (w.maxlines > 0) && decide (w.maxlines_curlines ≥ w.maxlines))
    || (decide (w.maxsize > 0) && decide (w.maxsize_cursize ≥ w.maxsize))
    || (w.daily && decide (day ≠ w.daily_opendate))

/-- Diagnostic line written to stderr,
`fmt.Fprintf(os.Stderr, "FileLogWriter(%q): %s\n", filename, err)`. -/
def diagMsg (filename msg : String) : String :=
  "FileLogWriter(\"" ++ filename ++ "\"): " ++ msg ++ "\n"

/-- The write and count update for one record (source lines 126–134).  A
write error is reported to stderr and — the source has no return statement in
that branch — the worker falls through to the count updates and goes on to
the next loop iteration.  Returns the new writer state, the new directory
state and the diagnostic lines emitted. -/
def writeStep (w : FileLogWriter) (fs : Fs) (e : WriteRec) :
    FileLogWriter × Fs × List String :=
  if e.writeFails then
    ({ w with maxlines_curlines := w.maxlines_curlines + 1
              maxsize_cursize := w.maxsize_cursize + 0 }, fs,
      [diagMsg w.filename "write error"])
  else
    ({ w with maxlines_curlines := w.maxlines_curlines + 1
              maxsize_cursize := w.maxsize_cursize + (e.out.length : Int) },
      appendFs fs w.filename e.out, [])

/-- One iteration of the worker loop for a dequeued record (source lines
112–135): evaluate the rotation guard, rotate first when it trips — an error
there is fatal, the worker reports it and returns — then write the record
and update the counts. -/
def handleRec (w : FileLogWriter) (fs : Fs) (e : WriteRec) :
    Except String (FileLogWriter × Fs × List String) :=
  if needsRotation w e.day then
    match intRotate w fs true e.day with
    | .error msg => .error msg
    | .ok r => .ok (writeStep r.1 r.2 e)
  else .ok (writeStep w fs e)

/-- Outcome of running the worker: final writer state, final directory state,
diagnostic lines in emission order, and the queue records left unconsumed
(nonempty only when the worker exited on a fatal rotation error). -/
structure RunResult where
  w : FileLogWriter
  fs : Fs
  diags : List String
  pending : List WriteRec
deriving DecidableEq

/-- The worker loop over a queue of records (source lines 105–136).  On a
fatal rotation error the worker reports it and exits, leaving the rest of
the queue unconsumed. -/
def runWorker : FileLogWriter → Fs → List WriteRec → RunResult
  | w, fs, [] => ⟨w, fs, [], []⟩
  | w, fs, e :: rest =>
    match handleRec w fs e with
    | .ok r =>
      let t := runWorker r.1 r.2.1 rest
      ⟨t.w, t.fs, r.2.2 ++ t.diags, t.pending⟩
    | .error msg => ⟨w, fs, [diagMsg w.filename msg], e :: rest⟩

/-- Worker startup followed by the loop (source lines 87–137): the initial
non-forced rotation opens or resumes the file; on error the worker reports
and exits before consuming anything. -/
def startAndRun (w : FileLogWriter) (fs : Fs) (day0 : Int) (events : List WriteRec) :
    RunResult :=
  match intRotate w fs false day0 with
  | .error msg => ⟨w, fs, [diagMsg w.filename msg], events⟩
  | .ok r => runWorker r.1 r.2 events

/-- The record template installed by NewXMLLogWriter (source lines 408–415),
a Go raw string literal spanning five lines; it contains four newline bytes. -/
def xmlFormat : String :=
  "\t<record level=\"%L\">\n\t\t<timestamp>%D %T</timestamp>\n\t\t<source>%S</source>\n\t\t<message>%M</message>\n\t</record>"

/-- Concatenation of the rendered outputs of a sequence of records, which is
the content the active file accumulates as the worker writes them. -/
def concatOuts (outs : List String) : String := outs.foldl (fun acc o => acc ++ o) ""

/-- The numeric suffixes occupied in a directory state, read off with the
same name matching the index uses. -/
def occupiedSuffixes (fs : Fs) : List Nat := (fs.map Prod.fst).filterMap matchFileNum

/-- Stated from the claim wording for C1 (the spec's free-slot rule): the
lowest positive integer not present in the occupied set, found by scanning
ascending from 1. -/
def specFreeSlotAux : Nat → Nat → List Nat → Nat
  | 0, cand, _ => cand
  | fuel + 1, cand, nums => if cand ∈ nums then specFreeSlotAux fuel (cand + 1) nums else cand

/-- The claimed free slot: lowest positive integer absent from the occupied
set (a scan bounded by the size of the set always finds it). -/
def specFreeSlot (nums : List Nat) : Nat := specFreeSlotAux (nums.length + 1) 1 nums

/-- Stated from the claim wording for C5: match a directory entry against
base-dot-digits with one to six digits, for the given base filename. -/
def specMatch (base : String) (name : String) : Option Nat :=
  let b := (base ++ ".").toList
  let n := name.toList
  if n.take b.length = b then
    let ds := n.drop b.length
    if ds ≠ [] ∧ ds.length ≤ 6 ∧ ds.all isDigitChar = true then some (digitsToNat ds)
    else none
  else none

/-- Stated from the claim wording for C5: the index that would contain
exactly the entries of the form base-dot-digits whose parsed suffix lies in
the interval from 1 inclusive to maxFiles exclusive. -/
def specFileNums (base : String) (fileNames : List String) (maxFiles : Int) :
    List (Nat × String) :=
  fileNames.foldl (fun m name =>
    match specMatch base name with
    | some num => if 1 ≤ num ∧ (num : Int) < maxFiles then mapInsert m num name else m
    | none => m) []

/-- A successfully written record, rendered as the given single line. -/
def evRec (s : String) : WriteRec := ⟨s, 1, false⟩

/-- Twelve records written sequentially, each rendering to one line. -/
def c7Events : List WriteRec :=
  [evRec "r01\n", evRec "r02\n", evRec "r03\n", evRec "r04\n", evRec "r05\n",
   evRec "r06\n", evRec "r07\n", evRec "r08\n", evRec "r09\n", evRec "r10\n",
   evRec "r11\n", evRec "r12\n"]

/-- A sink with rotation on and a line threshold of 5. -/
def c7Writer : FileLogWriter := setRotateLines (newFileLogWriter "app.log" true) 5

/-- A sink with rotation on and daily rotation enabled. -/
def c8Writer : FileLogWriter := setRotateDaily (newFileLogWriter "app.log" true) true

/-!
Helper lemmas about the embedding, shared by the claim theorems below.
-/

theorem freeSlotLoop_eq (l : List Nat) : ∀ n free : Nat, n ≤ free →
    freeSlotLoop l n free = free + l.length := by
  induction l with
  | nil => intro n free _; simp [freeSlotLoop]
  | cons x rest ih =>
    intro n free h
    have hng : ¬ n > free := by omega
    simp only [freeSlotLoop, if_neg hng]
    rw [ih (n + 1) (free + 1) (by omega)]
    simp only [List.length_cons]
    omega

theorem freeSlot_eq (nums : List Nat) : freeSlot nums = nums.length + 1 := by
  unfold freeSlot
  rw [freeSlotLoop_eq nums 0 1 (by omega)]
  omega

theorem lookupFs_filter_self (fs : Fs) (name : String) :
    lookupFs (fs.filter (fun e => decide (e.1 ≠ name))) name = none := by
  induction fs with
  | nil => rfl
  | cons e rest ih =>
    rw [List.filter_cons]
    by_cases h : e.1 = name
    · have hp : decide (e.1 ≠ name) = false := by simp [h]
      rw [hp]
      simpa using ih
    · have hp : decide (e.1 ≠ name) = true := by simp [h]
      rw [hp]
      simp only [if_pos rfl, lookupFs, if_neg h]
      exact ih

theorem lookupFs_filter_ne (fs : Fs) (name n : String) (hne : n ≠ name) :
    lookupFs (fs.filter (fun e => decide (e.1 ≠ name))) n = lookupFs fs n := by
  induction fs with
  | nil => rfl
  | cons e rest ih =>
    rw [List.filter_cons]
    by_cases h : e.1 = name
    · have hn : e.1 ≠ n := by rw [h]; exact fun q => hne q.symm
      have hp : decide (e.1 ≠ name) = false := by simp [h]
      rw [hp]
      simp only [Bool.false_eq_true, if_false]
      rw [ih]
      simp [lookupFs, hn]
    · have hp : decide (e.1 ≠ name) = true := by simp [h]
      rw [hp]
      simp only [if_pos rfl, lookupFs]
      by_cases he : e.1 = n
      · simp [he]
      · rw [if_neg he, if_neg he]
        exact ih

theorem mem_map_fst_filter (fs : Fs) (p : String × String → Bool) (n : String)
    (h : n ∈ (fs.filter p).map Prod.fst) : n ∈ fs.map Prod.fst := by
  rcases List.mem_map.mp h with ⟨e, he, rfl⟩
  exact List.mem_map.mpr ⟨e, List.mem_of_mem_filter he, rfl⟩

theorem lineCountLoopGo_eq : ∀ (fuel : Nat) (l : List Char), l.length ≤ fuel →
    lineCountLoopGo fuel l = (l.filter (fun c => c == '\n')).length := by
  intro fuel
  induction fuel with
  | zero =>
    intro l h
    have h0 : l = [] := List.eq_nil_of_length_eq_zero (Nat.le_zero.mp h)
    subst h0
    rfl
  | succ fuel ih =>
    intro l h
    cases l with
    | nil => rfl
    | cons c cs =>
      have hd : ((c :: cs).drop 8196).length ≤ fuel := by
        simp only [List.length_drop, List.length_cons]
        simp only [List.length_cons] at h
        omega
      simp only [lineCountLoopGo]
      rw [ih _ hd]
      conv_rhs => rw [← List.take_append_drop 8196 (c :: cs)]
      rw [List.filter_append, List.length_append]
      rfl

theorem lineCountLoop_eq (l : List Char) :
    lineCountLoop l = (l.filter (fun c => c == '\n')).length :=
  lineCountLoopGo_eq l.length l le_rfl

theorem countNewlines_append (a b : String) :
    countNewlines (a ++ b) = countNewlines a + countNewlines b := by
  simp [countNewlines, String.toList, String.data_append a b, List.filter_append]

theorem foldl_append_newlines (outs : List String) : ∀ acc : String,
    (∀ o ∈ outs, countNewlines o = 1) →
    countNewlines (outs.foldl (fun a o => a ++ o) acc) = countNewlines acc + outs.length := by
  induction outs with
  | nil => intro acc _; simp
  | cons o rest ih =>
    intro acc h
    simp only [List.foldl_cons]
    rw [ih (acc ++ o) (fun x hx => h x (List.mem_cons_of_mem _ hx)), countNewlines_append]
    have h1 := h o (List.mem_cons_self _ _)
    simp only [List.length_cons]
    omega

theorem lineCount_concatOuts (outs : List String) (h : ∀ o ∈ outs, countNewlines o = 1) :
    lineCount [("f", concatOuts outs)] "f" = .ok outs.length := by
  have h2 : lineCountLoop (concatOuts outs).toList = outs.length := by
    rw [lineCountLoop_eq]
    have h3 := foldl_append_newlines outs "" h
    simp only [countNewlines] at h3
    simp only [concatOuts]
    rw [h3, show (List.filter (fun c => c == '\n') "".toList).length = 0 from rfl]
    exact Nat.zero_add _
  have h1 : lineCount [("f", concatOuts outs)] "f" =
      Except.ok (lineCountLoop (concatOuts outs).toList) := rfl
  rw [h1, h2]

theorem lookupNum_any_false (m : List (Nat × String)) (k : Nat)
    (h : m.any (fun e => e.1 == k) = false) : lookupNum m k = none := by
  induction m with
  | nil => rfl
  | cons e rest ih =>
    simp only [List.any_cons, Bool.or_eq_false_iff] at h
    have hk : e.1 ≠ k := by simpa using h.1
    simp only [lookupNum, if_neg hk]
    exact ih h.2

theorem lookupNum_append_last (m : List (Nat × String)) (k : Nat) (v : String)
    (h : lookupNum m k = none) : lookupNum (m ++ [(k, v)]) k = some v := by
  induction m with
  | nil => simp [lookupNum]
  | cons e rest ih =>
    simp only [lookupNum] at h
    by_cases he : e.1 = k
    · rw [if_pos he] at h; cases h
    · rw [if_neg he] at h
      simp only [List.cons_append, lookupNum, if_neg he]
      exact ih h

theorem lookupNum_mapReplace_self : ∀ (m : List (Nat × String)) (k : Nat) (v : String),
    m.any (fun e => e.1 == k) = true →
    lookupNum (m.map (fun e => if e.1 = k then (k, v) else e)) k = some v := by
  intro m
  induction m with
  | nil => intro k v h; cases h
  | cons e rest ih =>
    obtain ⟨n, c⟩ := e
    intro k v h
    by_cases he : n = k
    · simp only [List.map_cons]
      rw [show (if (n, c).1 = k then (k, v) else (n, c)) = (k, v) from if_pos he]
      simp [lookupNum]
    · simp only [List.any_cons] at h
      have h2 : rest.any (fun e2 => e2.1 == k) = true := by
        rcases Bool.or_eq_true_iff.mp h with h1 | h1
        · exact absurd (by simpa using h1) he
        · exact h1
      simp only [List.map_cons]
      rw [show (if (n, c).1 = k then (k, v) else (n, c)) = (n, c) from if_neg he]
      simp only [lookupNum]
      rw [if_neg he]
      exact ih k v h2

theorem lookupNum_mapReplace_ne (k : Nat) (v : String) (q : Nat) (hq : q ≠ k) :
    ∀ m : List (Nat × String),
    lookupNum (m.map (fun e => if e.1 = k then (k, v) else e)) q = lookupNum m q := by
  intro m
  induction m with
  | nil => rfl
  | cons e rest ih =>
    obtain ⟨n, c⟩ := e
    by_cases he : n = k
    · simp only [List.map_cons]
      rw [show (if (n, c).1 = k then (k, v) else (n, c)) = (k, v) from if_pos he]
      simp only [lookupNum]
      rw [if_neg (fun hc : k = q => hq hc.symm),
        if_neg (fun hc : n = q => hq (he ▸ hc).symm)]
      exact ih
    · simp only [List.map_cons]
      rw [show (if (n, c).1 = k then (k, v) else (n, c)) = (n, c) from if_neg he]
      simp only [lookupNum]
      by_cases heq : n = q
      · rw [if_pos heq, if_pos heq]
      · rw [if_neg heq, if_neg heq]
        exact ih

theorem lookupNum_append_ne (k : Nat) (v : String) (q : Nat) (hq : q ≠ k) :
    ∀ m : List (Nat × String), lookupNum (m ++ [(k, v)]) q = lookupNum m q := by
  intro m
  induction m with
  | nil =>
    simp only [List.nil_append, lookupNum]
    rw [if_neg (fun hc : k = q => hq hc.symm)]
  | cons e rest ih =>
    obtain ⟨n, c⟩ := e
    simp only [List.cons_append, lookupNum]
    by_cases heq : n = q
    · rw [if_pos heq, if_pos heq]
    · rw [if_neg heq, if_neg heq]
      exact ih

theorem lookupNum_mapInsert_self (m : List (Nat × String)) (k : Nat) (v : String) :
    lookupNum (mapInsert m k v) k = some v := by
  unfold mapInsert
  by_cases ha : m.any (fun e => e.1 == k) = true
  · rw [if_pos ha]
    exact lookupNum_mapReplace_self m k v ha
  · rw [if_neg ha]
    exact lookupNum_append_last m k v
      (lookupNum_any_false m k (Bool.eq_false_iff.mpr ha))

theorem lookupNum_mapInsert_ne (m : List (Nat × String)) (k : Nat) (v : String)
    (q : Nat) (hq : q ≠ k) : lookupNum (mapInsert m k v) q = lookupNum m q := by
  unfold mapInsert
  by_cases ha : m.any (fun e => e.1 == k) = true
  · rw [if_pos ha]
    exact lookupNum_mapReplace_ne k v q hq m
  · rw [if_neg ha]
    exact lookupNum_append_ne k v q hq m

theorem getFileNumsFold_sound (maxFiles : Int) :
    ∀ (names : List String) (m : List (Nat × String)) (k : Nat) (v : String),
    lookupNum (names.foldl (getFileNumsStep maxFiles) m) k = some v →
    lookupNum m k = some v ∨
      (v ∈ names ∧ matchFileNum v = some k ∧ (maxFiles ≤ 0 ∨ (k : Int) < maxFiles)) := by
  intro names
  induction names with
  | nil => intro m k v h; exact Or.inl h
  | cons a rest ih =>
    intro m k v h
    simp only [List.foldl_cons] at h
    rcases ih _ k v h with h1 | h1
    · cases hm : matchFileNum a with
      | none =>
        simp only [getFileNumsStep, hm] at h1
        exact Or.inl h1
      | some num =>
        simp only [getFileNumsStep, hm] at h1
        by_cases hc : maxFiles ≤ 0 ∨ (num : Int) < maxFiles
        · rw [if_pos hc] at h1
          by_cases hk : k = num
          · subst hk
            rw [lookupNum_mapInsert_self] at h1
            have hv : a = v := Option.some.inj h1
            subst hv
            exact Or.inr ⟨List.mem_cons_self _ _, hm, hc⟩
          · rw [lookupNum_mapInsert_ne _ _ _ _ hk] at h1
            exact Or.inl h1
        · rw [if_neg hc] at h1
          exact Or.inl h1
    · exact Or.inr ⟨List.mem_cons_of_mem _ h1.1, h1.2⟩

theorem getFileNumsFold_preserves (maxFiles : Int) :
    ∀ (names : List String) (m : List (Nat × String)) (k : Nat),
    (∃ v, lookupNum m k = some v) →
    ∃ v, lookupNum (names.foldl (getFileNumsStep maxFiles) m) k = some v := by
  intro names
  induction names with
  | nil => intro m k h; exact h
  | cons a rest ih =>
    intro m k h
    simp only [List.foldl_cons]
    apply ih
    cases hm : matchFileNum a with
    | none => simpa only [getFileNumsStep, hm] using h
    | some num =>
      simp only [getFileNumsStep, hm]
      by_cases hc : maxFiles ≤ 0 ∨ (num : Int) < maxFiles
      · rw [if_pos hc]
        by_cases hk : k = num
        · subst hk
          exact ⟨a, lookupNum_mapInsert_self _ _ _⟩
        · rw [lookupNum_mapInsert_ne _ _ _ _ hk]
          exact h
      · rw [if_neg hc]
        exact h

theorem getFileNumsFold_complete (maxFiles : Int) :
    ∀ (names : List String) (m : List (Nat × String)) (k : Nat) (v : String),
    v ∈ names → matchFileNum v = some k → (maxFiles ≤ 0 ∨ (k : Int) < maxFiles) →
    ∃ v2, lookupNum (names.foldl (getFileNumsStep maxFiles) m) k = some v2 := by
  intro names
  induction names with
  | nil => intro m k v hv; cases hv
  | cons a rest ih =>
    intro m k v hv hm hc
    simp only [List.foldl_cons]
    rcases List.mem_cons.mp hv with rfl | hv2
    · apply getFileNumsFold_preserves
      simp only [getFileNumsStep, hm]
      rw [if_pos hc]
      exact ⟨v, lookupNum_mapInsert_self _ _ _⟩
    · exact ih _ k v hv2 hm hc

theorem sorted_le_getLast : ∀ (L : List Nat) (hne : L ≠ []), List.Sorted (· ≤ ·) L →
    ∀ x ∈ L, x ≤ L.getLast hne := by
  intro L
  induction L with
  | nil => intro hne; cases hne rfl
  | cons a t ih =>
    intro hne hs x hx
    cases t with
    | nil =>
      simp only [List.mem_singleton] at hx
      subst hx
      simp [List.getLast]
    | cons b t2 =>
      rw [List.getLast_cons (by simp)]
      rcases List.mem_cons.mp hx with rfl | hx2
      · have hmem := List.getLast_mem (l := b :: t2) (by simp)
        exact (List.sorted_cons.mp hs).1 _ hmem
      · exact ih (by simp) (List.sorted_cons.mp hs).2 x hx2

theorem sortInts_getLast_max (l : List Nat) (h : l ≠ []) :
    ∃ m, (sortInts l).getLast? = some m ∧ m ∈ l ∧ ∀ x ∈ l, x ≤ m := by
  have hperm : List.Perm (sortInts l) l := List.perm_insertionSort _ l
  have hsort : List.Sorted (· ≤ ·) (sortInts l) := List.sorted_insertionSort _ l
  have hne : sortInts l ≠ [] := by
    intro h0
    rw [h0] at hperm
    exact h (List.Perm.eq_nil hperm.symm)
  refine ⟨(sortInts l).getLast hne, List.getLast?_eq_getLast _ hne, ?_, ?_⟩
  · exact hperm.subset (List.getLast_mem hne)
  · intro x hx
    exact sorted_le_getLast (sortInts l) hne hsort x (hperm.symm.subset hx)

/-!
Claim theorems.
-/

/-- C1: claims that the free slot computed by renameOldFiles is the lowest
positive integer absent from the occupied suffix set (1 for the occupied set
containing 2 and 5).  The code disagrees: its loop ranges over slice INDICES,
so the computed free slot is always the occupied count plus one — 3 for that
set — and, run on a directory occupying suffixes 2 and 5, renameOldFiles
accordingly shifts the suffix-2 file to suffix 3 instead of leaving it alone,
while the spec free slot of that set is 1. -/
theorem c1_free_slot_is_count_plus_one :
    (∀ nums : List Nat, freeSlot nums = nums.length + 1)
    ∧ freeSlot (sortInts [2, 5]) = 3
    ∧ specFreeSlot [2, 5] = 1 ∧ specFreeSlot [1, 3] = 2 ∧ specFreeSlot [1, 2, 3] = 4
    ∧ renameOldFiles [("app.log.0002", "x2"), ("app.log.0005", "x5"), ("app.log", "a")]
        "app.log" 100 =
      .ok [("app.log.0005", "x5"), ("app.log.0003", "x2"), ("app.log.0001", "a")] :=
  ⟨freeSlot_eq, by decide, by decide, by decide, by decide, rfl⟩

/-- C2: claims the shift step never renames a file onto a not-yet-moved
existing file, so no retained rotated file below the cap is overwritten or
lost.  With occupied suffixes 2 and 3 (and a large cap), the index-ranging
free-slot bug makes the free slot 3, and the descending shift renames
suffix 2 onto the still-present suffix-3 file: renameOldFiles succeeds, yet
the content x3 of the suffix-3 file is at no path afterwards. -/
theorem c2_shift_clobbers_unmoved_file :
    renameOldFiles [("app.log.0002", "x2"), ("app.log.0003", "x3"), ("app.log", "a")]
        "app.log" 100 = .ok [("app.log.0003", "x2"), ("app.log.0001", "a")]
    ∧ "x3" ∉ ([("app.log.0003", "x2"), ("app.log.0001", "a")] : Fs).map Prod.snd :=
  ⟨rfl, by decide⟩

/-- C3: claims that resuming without forced rotation against an existing
3-line file with maxLines 10 sets the in-memory line counter to 3.  The code
disagrees: line 166 declares a new shadowed cur_lines inside the block, so
the counter installed at line 207 is the outer variable, still 0 — even
though lineCount correctly measures 3 lines and the size counter does resume
(here at 9 bytes). -/
theorem c3_resume_line_counter_stays_zero :
    intRotate (setRotateLines (newFileLogWriter "app.log" true) 10)
        [("app.log", "l1\nl2\nl3\n")] false 7 =
      .ok ({ setRotateLines (newFileLogWriter "app.log" true) 10 with
              fileOpen := true
              daily_opendate := 7
              maxlines_curlines := 0
              maxsize_cursize := 9 },
            [("app.log", "l1\nl2\nl3\n")])
    ∧ lineCount [("app.log", "l1\nl2\nl3\n")] "app.log" = .ok 3 :=
  ⟨rfl, rfl⟩

/-- C4 counterexample: the claim says a failed record write is fatal — the
worker stops consuming its queue and never processes subsequent records.  In
this concrete run the write of the first record fails, yet the worker emits
one diagnostic line, consumes the whole queue, writes the second record to
the file, and counts both records. -/
theorem c4_worker_survives_write_error :
    (startAndRun (newFileLogWriter "app.log" false) [] 1
        [⟨"r1\n", 1, true⟩, ⟨"r2\n", 1, false⟩]).pending = []
    ∧ lookupFs (startAndRun (newFileLogWriter "app.log" false) [] 1
        [⟨"r1\n", 1, true⟩, ⟨"r2\n", 1, false⟩]).fs "app.log" = some "r2\n"
    ∧ (startAndRun (newFileLogWriter "app.log" false) [] 1
        [⟨"r1\n", 1, true⟩, ⟨"r2\n", 1, false⟩]).diags = [diagMsg "app.log" "write error"]
    ∧ (startAndRun (newFileLogWriter "app.log" false) [] 1
        [⟨"r1\n", 1, true⟩, ⟨"r2\n", 1, false⟩]).w.maxlines_curlines = 2 :=
  ⟨rfl, rfl, rfl, rfl⟩

/-- C4 amended: only rotation-path errors are fatal to the worker; a record
write error is reported to the diagnostic stream, the counters are still
updated (the line counter by 1, the size counter by the 0 bytes written) and
the worker goes on to consume the rest of its queue. -/
theorem c4_amended_write_error_reported_not_fatal (w : FileLogWriter) (fs : Fs)
    (e : WriteRec) (rest : List WriteRec) (hfail : e.writeFails = true)
    (hrot : needsRotation w e.day = false) :
    handleRec w fs e = .ok
      ({ w with maxlines_curlines := w.maxlines_curlines + 1
                maxsize_cursize := w.maxsize_cursize + 0 }, fs,
        [diagMsg w.filename "write error"])
    ∧ runWorker w fs (e :: rest) =
      (fun t : RunResult => ⟨t.w, t.fs, diagMsg w.filename "write error" :: t.diags, t.pending⟩)
        (runWorker { w with maxlines_curlines := w.maxlines_curlines + 1
                            maxsize_cursize := w.maxsize_cursize + 0 } fs rest) := by
  constructor
  · simp [handleRec, hrot, writeStep, hfail]
  · simp [runWorker, handleRec, hrot, writeStep, hfail]

/-- C4 amended, witnessed at a concrete failing write with an empty rest of
the queue. -/
theorem c4_amended_witness :
    handleRec (newFileLogWriter "app.log" false) [] ⟨"r1\n", 1, true⟩ = .ok
      ({ newFileLogWriter "app.log" false with
          maxlines_curlines := (newFileLogWriter "app.log" false).maxlines_curlines + 1
          maxsize_cursize := (newFileLogWriter "app.log" false).maxsize_cursize + 0 }, [],
        [diagMsg (newFileLogWriter "app.log" false).filename "write error"])
    ∧ runWorker (newFileLogWriter "app.log" false) [] [⟨"r1\n", 1, true⟩] =
      (fun t : RunResult =>
          ⟨t.w, t.fs, diagMsg (newFileLogWriter "app.log" false).filename "write error" :: t.diags,
            t.pending⟩)
        (runWorker { newFileLogWriter "app.log" false with
            maxlines_curlines := (newFileLogWriter "app.log" false).maxlines_curlines + 1
            maxsize_cursize := (newFileLogWriter "app.log" false).maxsize_cursize + 0 } [] []) :=
  c4_amended_write_error_reported_not_fatal (newFileLogWriter "app.log" false) []
    ⟨"r1\n", 1, true⟩ [] rfl rfl

/-- C5 counterexample: the claim says the index contains exactly the entries
of the form base-dot-digits with suffix in the interval from 1 up to the cap.
The code's pattern ignores the base filename and admits suffix 0: a directory
entry other.2 (different base) and an entry app.log.0 (suffix 0) are both
indexed, while the claimed index (specFileNums) contains neither. -/
theorem c5_index_ignores_base_and_admits_zero :
    (getFileNums ["other.2"] 10).1 = [(2, "other.2")]
    ∧ specFileNums "app.log" ["other.2"] 10 = []
    ∧ (getFileNums ["app.log.0"] 10).1 = [(0, "app.log.0")]
    ∧ specFileNums "app.log" ["app.log.0"] 10 = []
    ∧ ([(2, "other.2")] : List (Nat × String)) ≠ [] :=
  ⟨rfl, rfl, rfl, rfl, by decide⟩

/-- C5 amended: the numbering index contains exactly the directory entries
whose name ends in a dot followed by one to six digits — regardless of what
precedes the dot — whose parsed suffix is below maxRetainedFiles when the cap
is positive (suffix 0 included); every indexed entry is such a name, and
every such name yields an indexed suffix. -/
theorem c5_amended_index_characterization (names : List String) (maxFiles : Int) (k : Nat) :
    (∀ v, lookupNum (getFileNums names maxFiles).1 k = some v →
        v ∈ names ∧ matchFileNum v = some k ∧ (maxFiles ≤ 0 ∨ (k : Int) < maxFiles))
    ∧ (∀ v, v ∈ names → matchFileNum v = some k → (maxFiles ≤ 0 ∨ (k : Int) < maxFiles) →
        ∃ v2, lookupNum (getFileNums names maxFiles).1 k = some v2) := by
  constructor
  · intro v h
    have h2 := getFileNumsFold_sound maxFiles names [] k v (by simpa [getFileNums] using h)
    rcases h2 with h3 | h3
    · cases h3
    · exact h3
  · intro v hv hm hc
    have h2 := getFileNumsFold_complete maxFiles names [] k v hv hm hc
    simpa [getFileNums] using h2

/-- C5 amended, witnessed: the single entry app.log.0001 is indexed under
suffix 1 with a cap of 100. -/
theorem c5_amended_witness :
    ∃ v2, lookupNum (getFileNums ["app.log.0001"] 100).1 1 = some v2 :=
  (c5_amended_index_characterization ["app.log.0001"] 100 1).2 "app.log.0001"
    (by decide) rfl (by decide)

/-- C6: when the eviction condition free at-least maxFiles holds, the evicted
key — the last of the sorted occupied keys — is an occupied suffix that is
numerically highest; and in the concrete cap-3 scenario with .0001, .0002 and
.0003 all existing, renameOldFiles deletes the file at suffix 2 (the highest
occupied suffix below the cap — .0003 is excluded from the index by the cap),
shifts .0001 to .0002, places the active file at .0001 and leaves exactly the
occupied suffixes 1, 2, 3. -/
theorem c6_retention_cap_eviction :
    (∀ l : List Nat, l ≠ [] → ∃ m, (sortInts l).getLast? = some m ∧ m ∈ l ∧ ∀ x ∈ l, x ≤ m)
    ∧ renameOldFiles [("app.log", "a0"), ("app.log.0001", "a1"), ("app.log.0002", "a2"),
        ("app.log.0003", "a3")] "app.log" 3 =
      .ok [("app.log.0003", "a3"), ("app.log.0002", "a1"), ("app.log.0001", "a0")]
    ∧ sortInts (occupiedSuffixes
        [("app.log.0003", "a3"), ("app.log.0002", "a1"), ("app.log.0001", "a0")]) = [1, 2, 3]
    ∧ "a2" ∉ ([("app.log.0003", "a3"), ("app.log.0002", "a1"),
        ("app.log.0001", "a0")] : Fs).map Prod.snd :=
  ⟨sortInts_getLast_max, rfl, by decide, by decide⟩

/-- C6, witnessed: the evicted key for the occupied set 2, 5 is 5. -/
theorem c6_witness :
    ∃ m, (sortInts [2, 5]).getLast? = some m ∧ m ∈ [2, 5] ∧ ∀ x ∈ [2, 5], x ≤ m :=
  c6_retention_cap_eviction.1 [2, 5] (by decide)

/-- C7 counterexample: the claim says that after 12 records with maxLines 5
the batch of records 1 to 5 ends at suffix 0001 and records 6 to 10 end at
suffix 0002.  The run shows the opposite assignment: .0001 holds records 6
to 10 and .0002 holds records 1 to 5. -/
theorem c7_batch_assignment_swapped :
    lookupFs (startAndRun c7Writer [] 1 c7Events).fs "app.log.0001" =
      some "r06\nr07\nr08\nr09\nr10\n"
    ∧ lookupFs (startAndRun c7Writer [] 1 c7Events).fs "app.log.0002" =
      some "r01\nr02\nr03\nr04\nr05\n"
    ∧ some "r06\nr07\nr08\nr09\nr10\n" ≠ some "r01\nr02\nr03\nr04\nr05\n" :=
  ⟨rfl, rfl, by decide⟩

/-- C7 amended: with maxLines 5 and 12 records the 5/5/2 partition holds with
the batches placed as the code places them — after records 1 to 5 the active
file holds those 5; record 6 rotates, putting records 1 to 5 at .0001; record
11 rotates again, shifting records 1 to 5 from .0001 to .0002 and putting
records 6 to 10 at .0001; after record 12 the active file holds records 11
and 12 and the line counter is 2. -/
theorem c7_amended_partition_5_5_2 :
    (startAndRun c7Writer [] 1 (c7Events.take 5)).fs =
      [("app.log", "r01\nr02\nr03\nr04\nr05\n")]
    ∧ (startAndRun c7Writer [] 1 (c7Events.take 6)).fs =
      [("app.log.0001", "r01\nr02\nr03\nr04\nr05\n"), ("app.log", "r06\n")]
    ∧ (startAndRun c7Writer [] 1 c7Events).fs =
      [("app.log.0002", "r01\nr02\nr03\nr04\nr05\n"),
        ("app.log.0001", "r06\nr07\nr08\nr09\nr10\n"),
        ("app.log", "r11\nr12\n")]
    ∧ (startAndRun c7Writer [] 1 c7Events).w.maxlines_curlines = 2
    ∧ (startAndRun c7Writer [] 1 c7Events).pending = [] :=
  ⟨rfl, rfl, rfl, rfl, rfl⟩

/-- C8: with dailyRotate enabled, a dequeued record whose day differs from
the day recorded at file-open time makes the rotation guard fire, and the
worker's handling of that record is exactly a forced rotation followed by the
write — with no hypothesis on the line or size thresholds or counters. -/
theorem c8_daily_change_rotates_before_write (w : FileLogWriter) (fs : Fs) (e : WriteRec)
    (hd : w.daily = true) (hne : e.day ≠ w.daily_opendate) :
    needsRotation w e.day = true
    ∧ handleRec w fs e =
      Except.map (fun r => writeStep r.1 r.2 e) (intRotate w fs true e.day) := by
  have hg : needsRotation w e.day = true := by
    simp [needsRotation, hd, hne]
  refine ⟨hg, ?_⟩
  cases hr : intRotate w fs true e.day with
  | ok r => simp [handleRec, hg, hr, Except.map]
  | error msg => simp [handleRec, hg, hr, Except.map]

/-- C8, witnessed on a daily sink whose file was opened on day 0 processing a
record on day 2. -/
theorem c8_witness :
    needsRotation c8Writer 2 = true
    ∧ handleRec c8Writer [("app.log", "old\n")] ⟨"new\n", 2, false⟩ =
      Except.map (fun r => writeStep r.1 r.2 ⟨"new\n", 2, false⟩)
        (intRotate c8Writer [("app.log", "old\n")] true 2) :=
  c8_daily_change_rotates_before_write c8Writer [("app.log", "old\n")]
    ⟨"new\n", 2, false⟩ rfl (by decide)

/-- C9: with maxRetainedFiles 1 and an existing target file, renameOldFiles
just removes the target: the call succeeds returning the directory without
the target, the target path no longer resolves, every other entry is
untouched, and no new directory entry (numbered or otherwise) is created. -/
theorem c9_single_file_retention_deletes (fs : Fs) (base c : String)
    (h : lookupFs fs base = some c) :
    renameOldFiles fs base 1 = .ok (fs.filter (fun e => decide (e.1 ≠ base)))
    ∧ lookupFs (fs.filter (fun e => decide (e.1 ≠ base))) base = none
    ∧ (∀ n, n ≠ base → lookupFs (fs.filter (fun e => decide (e.1 ≠ base))) n = lookupFs fs n)
    ∧ (∀ n, n ∈ (fs.filter (fun e => decide (e.1 ≠ base))).map Prod.fst →
        n ∈ fs.map Prod.fst) := by
  refine ⟨?_, lookupFs_filter_self fs base,
    fun n hn => lookupFs_filter_ne fs base n hn,
    fun n hn => mem_map_fst_filter fs _ n hn⟩
  simp [renameOldFiles, osRemove, h]

/-- C9, witnessed on a directory holding the active file and one rotated
file. -/
theorem c9_witness :
    renameOldFiles [("app.log", "a"), ("app.log.0001", "b")] "app.log" 1 =
      .ok (([("app.log", "a"), ("app.log.0001", "b")] : Fs).filter
        (fun e => decide (e.1 ≠ "app.log")))
    ∧ lookupFs (([("app.log", "a"), ("app.log.0001", "b")] : Fs).filter
        (fun e => decide (e.1 ≠ "app.log"))) "app.log" = none
    ∧ (∀ n, n ≠ "app.log" →
        lookupFs (([("app.log", "a"), ("app.log.0001", "b")] : Fs).filter
          (fun e => decide (e.1 ≠ "app.log"))) n =
        lookupFs [("app.log", "a"), ("app.log.0001", "b")] n)
    ∧ (∀ n, n ∈ ((([("app.log", "a"), ("app.log.0001", "b")] : Fs).filter
        (fun e => decide (e.1 ≠ "app.log"))).map Prod.fst) →
        n ∈ ([("app.log", "a"), ("app.log.0001", "b")] : Fs).map Prod.fst) :=
  c9_single_file_retention_deletes [("app.log", "a"), ("app.log.0001", "b")] "app.log" "a" rfl

/-- C10: the worker's write step always increments the in-memory line counter
by exactly 1, whatever the rendered output of the record is; the resumed
count instead counts newline bytes, so the two agree when every record
renders to exactly one newline, while the XML record template carries 4
newline bytes per record, making the resumed count of a one-record XML file
4, not 1. -/
theorem c10_line_counter_vs_newline_count :
    (∀ (w : FileLogWriter) (fs : Fs) (e : WriteRec),
        (writeStep w fs e).1.maxlines_curlines = w.maxlines_curlines + 1)
    ∧ (∀ outs : List String, (∀ o ∈ outs, countNewlines o = 1) →
        lineCount [("f", concatOuts outs)] "f" = .ok outs.length)
    ∧ countNewlines xmlFormat = 4
    ∧ lineCount [("f", concatOuts [xmlFormat])] "f" ≠ .ok ([xmlFormat].length) := by
  refine ⟨?_, lineCount_concatOuts, rfl, ?_⟩
  · intro w fs e
    cases hf : e.writeFails <;> simp [writeStep, hf]
  · have h4 : lineCount [("f", concatOuts [xmlFormat])] "f" = Except.ok 4 := rfl
    rw [h4]
    intro hcontra
    have h41 : (4 : Nat) = [xmlFormat].length := Except.ok.inj hcontra
    simp at h41

/-- C10, witnessed: two one-line records resume to a count of 2. -/
theorem c10_witness :
    lineCount [("f", concatOuts ["x\n", "y\n"])] "f" =
      .ok (["x\n", "y\n"] : List String).length :=
  c10_line_counter_vs_newline_count.2.1 ["x\n", "y\n"] (by decide)

end Log4go
